import Mathlib

/-!
Verification of the `MonoAssembly` binding layer (`src/src/api/MonoAssembly.ts`).

The TypeScript source is embedded shallowly:

* host scratch memory (`Memory.alloc`, `Memory.allocUtf8String`) is a bump
  allocator over natural-number addresses (`Nat`), with `0` playing the role
  of the null pointer (`NativePointer.isNull`);
* every observable step of an operation (string encoding, word allocation,
  bridged native call, status read) is recorded in an event trace;
* the native runtime behind the bridged symbols is opaque: it is modelled as
  a structure of uninterpreted functions (`NativeRuntime`), one per bound
  symbol, universally quantified in the theorems;
* a thrown `Error` is an `Except.error` carrying the message string.

`MonoBase`, `MonoImage`, `MonoImageOpenStatus` and `createNativeFunction`
belong to this repository but are not under `src/`; they are modelled from
the specification where indicated.
-/

/-- A value passed to a bridged native function: a pointer or a boolean flag. -/
inductive NativeVal where
  | ptr (a : Nat)
  | flag (b : Bool)
deriving DecidableEq

/-- Observable events of one host-side operation, in execution order:
UTF-8 string encoding into a fresh scratch buffer, raw scratch allocation,
a bridged native call (symbol, arguments, returned address if any), and a
host read of an integer out-parameter slot. -/
inductive Event where
  | allocUtf8String (s : String) (a : Nat)
  | alloc (size : Nat) (a : Nat)
  | nativeCall (sym : String) (args : List NativeVal) (ret : Option Nat)
  | readInt (a : Nat) (v : Int)
deriving DecidableEq

/-- Host-side scratch memory: a bump allocator (fresh addresses are taken at
`nextFree`, which only grows) together with an integer store for out-parameter
slots. -/
structure Mem where
  nextFree : Nat
  store : Nat → Int

/-- Execution state of the embedding: the scratch memory plus the trace of
events performed so far. -/
structure St where
  mem : Mem
  trace : List Event

/-- Modelled from the spec: `Process.pointerSize`, the machine word size in
bytes, used to size the status out-parameter slot (8 on a 64-bit target). -/
def Process.pointerSize : Nat := 8

/-- Modelled from the spec: `Memory.allocUtf8String` (Scratch Allocator,
§4.2) — encodes a string as a null-terminated UTF-8 buffer in fresh scratch
memory and returns its address. -/
def Memory.allocUtf8String (s : String) (st : St) : Nat × St :=
  let a := st.mem.nextFree
  ⟨a, ⟨⟨a + (s.utf8ByteSize + 1), st.mem.store⟩,
       st.trace ++ [Event.allocUtf8String s a]⟩⟩

/-- Modelled from the spec: `Memory.alloc` (Scratch Allocator, §4.2) —
allocates `size` bytes of fresh scratch memory and returns the address. -/
def Memory.alloc (size : Nat) (st : St) : Nat × St :=
  let a := st.mem.nextFree
  ⟨a, ⟨⟨a + size, st.mem.store⟩, st.trace ++ [Event.alloc size a]⟩⟩

/-- Write an integer into a scratch slot (the native callee filling the
out-parameter). -/
def Mem.writeInt (m : Mem) (a : Nat) (v : Int) : Mem :=
  ⟨m.nextFree, fun x => if x = a then v else m.store x⟩

/-- `NativePointer.readInt` on a scratch slot: reads the stored integer and
records the read in the trace. -/
def readIntAt (a : Nat) (st : St) : Int × St :=
  ⟨st.mem.store a, ⟨st.mem, st.trace ++ [Event.readInt a (st.mem.store a)]⟩⟩

/-- Modelled from the spec: the Native Call Bridge (`createNativeFunction`,
§4.1). Each field gives the opaque behaviour of one bound native symbol:
the returned address and, for symbols taking a status out-parameter, the
status code the callee writes into the supplied slot. The bridge itself is
stateless, so each field is a pure uninterpreted function of the call's
arguments. -/
structure NativeRuntime where
  mono_assembly_name_new : Nat → Nat
  mono_assembly_load : Nat → Nat → Nat × Int
  mono_assembly_load_full : Nat → Nat → Bool → Nat × Int
  mono_assembly_loaded : Nat → Nat
  mono_assembly_load_from : Nat → Nat → Nat × Int
  mono_assembly_load_from_full : Nat → Nat → Bool → Nat × Int
  mono_assembly_load_with_partial_name : Nat → Nat × Int

/-- Invocation of `mono_assembly_name_new(aname)`. -/
def NativeRuntime.call_name_new (rt : NativeRuntime) (a : Nat) (st : St) :
    Nat × St :=
  let r := rt.mono_assembly_name_new a
  ⟨r, ⟨st.mem,
       st.trace ++ [Event.nativeCall "mono_assembly_name_new" [.ptr a] (some r)]⟩⟩

/-- Invocation of `mono_assembly_load(aname, basedir, status)`: the callee
returns an address and writes a status code into the `slot`. -/
def NativeRuntime.call_load (rt : NativeRuntime) (aname bd slot : Nat)
    (st : St) : Nat × St :=
  let rc := rt.mono_assembly_load aname bd
  ⟨rc.1, ⟨st.mem.writeInt slot rc.2,
          st.trace ++ [Event.nativeCall "mono_assembly_load"
            [.ptr aname, .ptr bd, .ptr slot] (some rc.1)]⟩⟩

/-- Invocation of `mono_assembly_load_full(aname, basedir, status, refonly)`. -/
def NativeRuntime.call_load_full (rt : NativeRuntime) (aname bd slot : Nat)
    (refOnly : Bool) (st : St) : Nat × St :=
  let rc := rt.mono_assembly_load_full aname bd refOnly
  ⟨rc.1, ⟨st.mem.writeInt slot rc.2,
          st.trace ++ [Event.nativeCall "mono_assembly_load_full"
            [.ptr aname, .ptr bd, .ptr slot, .flag refOnly] (some rc.1)]⟩⟩

/-- Invocation of `mono_assembly_loaded(aname)`. -/
def NativeRuntime.call_loaded (rt : NativeRuntime) (a : Nat) (st : St) :
    Nat × St :=
  let r := rt.mono_assembly_loaded a
  ⟨r, ⟨st.mem,
       st.trace ++ [Event.nativeCall "mono_assembly_loaded" [.ptr a] (some r)]⟩⟩

/-- Invocation of `mono_assembly_load_from(image, name, status)`. -/
def NativeRuntime.call_load_from (rt : NativeRuntime) (img nm slot : Nat)
    (st : St) : Nat × St :=
  let rc := rt.mono_assembly_load_from img nm
  ⟨rc.1, ⟨st.mem.writeInt slot rc.2,
          st.trace ++ [Event.nativeCall "mono_assembly_load_from"
            [.ptr img, .ptr nm, .ptr slot] (some rc.1)]⟩⟩

/-- Invocation of `mono_assembly_load_from_full(image, name, status, refonly)`. -/
def NativeRuntime.call_load_from_full (rt : NativeRuntime) (img nm slot : Nat)
    (refOnly : Bool) (st : St) : Nat × St :=
  let rc := rt.mono_assembly_load_from_full img nm refOnly
  ⟨rc.1, ⟨st.mem.writeInt slot rc.2,
          st.trace ++ [Event.nativeCall "mono_assembly_load_from_full"
            [.ptr img, .ptr nm, .ptr slot, .flag refOnly] (some rc.1)]⟩⟩

/-- Invocation of `mono_assembly_load_with_partial_name(name, status)`. -/
def NativeRuntime.call_load_with_partial_name (rt : NativeRuntime)
    (nm slot : Nat) (st : St) : Nat × St :=
  let rc := rt.mono_assembly_load_with_partial_name nm
  ⟨rc.1, ⟨st.mem.writeInt slot rc.2,
          st.trace ++ [Event.nativeCall "mono_assembly_load_with_partial_name"
            [.ptr nm, .ptr slot] (some rc.1)]⟩⟩

/-- Invocation of `mono_assembly_close(assembly)`: a void native call; only
the trace records it. -/
def NativeRuntime.call_close (a : Nat) (st : St) : St :=
  ⟨st.mem, st.trace ++ [Event.nativeCall "mono_assembly_close" [.ptr a] none]⟩

/-- Modelled from the spec: the labels of the `MonoImageOpenStatus`
enumeration (Status Decoder, §4.4), plus the distinguishable `unknown`
label for out-of-domain codes. -/
inductive StatusLabel where
  | MONO_IMAGE_OK
  | MONO_IMAGE_ERROR_ERRNO
  | MONO_IMAGE_MISSING_ASSEMBLYREF
  | MONO_IMAGE_IMAGE_INVALID
  | unknown
deriving DecidableEq

/-- The descriptive string of a status label, as spliced into an error
message. -/
def StatusLabel.text : StatusLabel → String
  | .MONO_IMAGE_OK => "MONO_IMAGE_OK"
  | .MONO_IMAGE_ERROR_ERRNO => "MONO_IMAGE_ERROR_ERRNO"
  | .MONO_IMAGE_MISSING_ASSEMBLYREF => "MONO_IMAGE_MISSING_ASSEMBLYREF"
  | .MONO_IMAGE_IMAGE_INVALID => "MONO_IMAGE_IMAGE_INVALID"
  | .unknown => "unknown"

/-- Modelled from the spec: the Status Decoder (§4.4), `MonoImageOpenStatus`
indexed by a status code. Total pure mapping over the enumerated domain
0..3; an out-of-domain code maps to the distinguishable `unknown` label and
never throws. -/
def MonoImageOpenStatus (code : Int) : StatusLabel :=
  if code = 0 then .MONO_IMAGE_OK
  else if code = 1 then .MONO_IMAGE_ERROR_ERRNO
  else if code = 2 then .MONO_IMAGE_MISSING_ASSEMBLYREF
  else if code = 3 then .MONO_IMAGE_IMAGE_INVALID
  else .unknown

/-- A thrown host-language `Error`, identified by its message. -/
structure JSError where
  message : String
deriving DecidableEq

/-- The message of the error thrown by the failure branch of every load
operation: `'Failed loading MonoAssembly! Error: ' +
MonoImageOpenStatus[status.readInt()]`. -/
def failedLoadingMessage (code : Int) : String :=
  "Failed loading MonoAssembly! Error: " ++ (MonoImageOpenStatus code).text

/-- The `MonoAssembly` facade: per the Native Handle Facade model (§4.3, the
`MonoBase` base class is not under `src/`), a wrapper holding exactly the raw
native address (`$address`, exposed by the `address` accessor). -/
structure MonoAssembly where
  address : Nat
deriving DecidableEq

/-- Modelled from the spec: `MonoBase.fromAddress` (§4.3) — wraps an existing
address in a facade by pure local construction, performing no native call
and no validation. -/
def MonoAssembly.fromAddress (a : Nat) : MonoAssembly := ⟨a⟩

/-- The `MonoImage` facade (its class is not under `src/`): per the Native
Handle Facade model it is its raw address (`$address`). -/
structure MonoImage where
  address : Nat
deriving DecidableEq

/-- `MonoAssembly.close`: releases a reference to the assembly via the single
void native call `mono_assembly_close(this.$address)`. -/
def MonoAssembly.close (self : MonoAssembly) (st : St) : St :=
  NativeRuntime.call_close self.address st

/-- `MonoAssembly.load(name, basedir)`:
`mono_assembly_name_new(Memory.allocUtf8String(name))`, a fresh word-sized
status slot, `mono_assembly_load(monoAssemblyName,
Memory.allocUtf8String(basedir), status)`; a null result address throws the
decoded status, a non-null one is wrapped by `fromAddress`. -/
def MonoAssembly.load (rt : NativeRuntime) (name basedir : String) (st : St) :
    Except JSError MonoAssembly × St :=
  let nb := Memory.allocUtf8String name st
  let an := rt.call_name_new nb.1 nb.2
  let sl := Memory.alloc Process.pointerSize an.2
  let bb := Memory.allocUtf8String basedir sl.2
  let ad := rt.call_load an.1 bb.1 sl.1 bb.2
  if ad.1 = 0 then
    let rd := readIntAt sl.1 ad.2
    ⟨.error ⟨failedLoadingMessage rd.1⟩, rd.2⟩
  else
    ⟨.ok (MonoAssembly.fromAddress ad.1), ad.2⟩

/-- `MonoAssembly.loadFull(name, basedir, refOnly)`: as `load`, but invokes
`mono_assembly_load_full` forwarding the reflection-only flag. -/
def MonoAssembly.loadFull (rt : NativeRuntime) (name basedir : String)
    (refOnly : Bool) (st : St) : Except JSError MonoAssembly × St :=
  let nb := Memory.allocUtf8String name st
  let an := rt.call_name_new nb.1 nb.2
  let sl := Memory.alloc Process.pointerSize an.2
  let bb := Memory.allocUtf8String basedir sl.2
  let ad := rt.call_load_full an.1 bb.1 sl.1 refOnly bb.2
  if ad.1 = 0 then
    let rd := readIntAt sl.1 ad.2
    ⟨.error ⟨failedLoadingMessage rd.1⟩, rd.2⟩
  else
    ⟨.ok (MonoAssembly.fromAddress ad.1), ad.2⟩

/-- `MonoAssembly.loaded(name)`:
`mono_assembly_loaded(mono_assembly_name_new(Memory.allocUtf8String(name)))`,
whose result — null or not — is wrapped by `fromAddress` and returned; no
status slot, no branch, no throw. -/
def MonoAssembly.loaded (rt : NativeRuntime) (name : String) (st : St) :
    Except JSError MonoAssembly × St :=
  let nb := Memory.allocUtf8String name st
  let an := rt.call_name_new nb.1 nb.2
  let ad := rt.call_loaded an.1 an.2
  ⟨.ok (MonoAssembly.fromAddress ad.1), ad.2⟩

/-- `MonoAssembly.loadFrom(image, name)`: a fresh word-sized status slot,
then `mono_assembly_load_from(image.$address, Memory.allocUtf8String(name),
status)`; a null result address throws the decoded status, a non-null one is
wrapped by `fromAddress`. -/
def MonoAssembly.loadFrom (rt : NativeRuntime) (image : MonoImage)
    (name : String) (st : St) : Except JSError MonoAssembly × St :=
  let sl := Memory.alloc Process.pointerSize st
  let nb := Memory.allocUtf8String name sl.2
  let ad := rt.call_load_from image.address nb.1 sl.1 nb.2
  if ad.1 = 0 then
    let rd := readIntAt sl.1 ad.2
    ⟨.error ⟨failedLoadingMessage rd.1⟩, rd.2⟩
  else
    ⟨.ok (MonoAssembly.fromAddress ad.1), ad.2⟩

/-- `MonoAssembly.loadFromFull(image, name, refOnly)`: as `loadFrom`, but
invokes `mono_assembly_load_from_full` forwarding the reflection-only flag. -/
def MonoAssembly.loadFromFull (rt : NativeRuntime) (image : MonoImage)
    (name : String) (refOnly : Bool) (st : St) :
    Except JSError MonoAssembly × St :=
  let sl := Memory.alloc Process.pointerSize st
  let nb := Memory.allocUtf8String name sl.2
  let ad := rt.call_load_from_full image.address nb.1 sl.1 refOnly nb.2
  if ad.1 = 0 then
    let rd := readIntAt sl.1 ad.2
    ⟨.error ⟨failedLoadingMessage rd.1⟩, rd.2⟩
  else
    ⟨.ok (MonoAssembly.fromAddress ad.1), ad.2⟩

/-- `MonoAssembly.loadWithPartialName(name)`: a fresh word-sized status slot,
then `mono_assembly_load_with_partial_name(Memory.allocUtf8String(name),
status)`; a null result address throws the decoded status, a non-null one is
wrapped by `fromAddress`. -/
def MonoAssembly.loadWithPartialName (rt : NativeRuntime) (name : String)
    (st : St) : Except JSError MonoAssembly × St :=
  let sl := Memory.alloc Process.pointerSize st
  let nb := Memory.allocUtf8String name sl.2
  let ad := rt.call_load_with_partial_name nb.1 sl.1 nb.2
  if ad.1 = 0 then
    let rd := readIntAt sl.1 ad.2
    ⟨.error ⟨failedLoadingMessage rd.1⟩, rd.2⟩
  else
    ⟨.ok (MonoAssembly.fromAddress ad.1), ad.2⟩

/-- Concrete runtime whose load symbols fail with status code 2
(`MONO_IMAGE_MISSING_ASSEMBLYREF`). -/
def rtFail : NativeRuntime where
  mono_assembly_name_new := fun a => a + 100
  mono_assembly_load := fun _ _ => (0, 2)
  mono_assembly_load_full := fun _ _ _ => (0, 2)
  mono_assembly_loaded := fun _ => 0
  mono_assembly_load_from := fun _ _ => (0, 2)
  mono_assembly_load_from_full := fun _ _ _ => (0, 2)
  mono_assembly_load_with_partial_name := fun _ => (0, 2)

/-- Concrete runtime whose load symbols succeed with address 4096. -/
def rtOk : NativeRuntime where
  mono_assembly_name_new := fun a => a + 100
  mono_assembly_load := fun _ _ => (4096, 0)
  mono_assembly_load_full := fun _ _ _ => (4096, 0)
  mono_assembly_loaded := fun _ => 4096
  mono_assembly_load_from := fun _ _ => (4096, 0)
  mono_assembly_load_from_full := fun _ _ _ => (4096, 0)
  mono_assembly_load_with_partial_name := fun _ => (4096, 0)

/-- Initial state: empty trace, scratch memory starting above the null
address. -/
def st0 : St := ⟨⟨1, fun _ => 0⟩, []⟩

/-- The address allocated by an allocation event, if any. -/
def Event.allocAddr : Event → Option Nat
  | .allocUtf8String _ a => some a
  | .alloc _ a => some a
  | _ => none

/-- Whether an event is a raw scratch allocation (`Memory.alloc`), as used
for the status out-parameter slot. -/
def Event.isAlloc : Event → Bool
  | .alloc _ _ => true
  | _ => false

/-- Whether an event is a host read of an integer out-parameter slot. -/
def Event.isReadInt : Event → Bool
  | .readInt _ _ => true
  | _ => false

/-- The events one operation appended to the trace: the final trace with the
initial trace stripped off the front. -/
def newEvents (st stOut : St) : List Event := stOut.trace.drop st.trace.length

/-- The scratch addresses allocated by the events one operation appended. -/
def allocatedAddrs (st stOut : St) : List Nat :=
  (newEvents st stOut).filterMap Event.allocAddr

/-- The result component of a load operation branches on the address the
bridged call returned, with the status code the callee wrote: a null address
throws the decoded status label, a non-null one is wrapped by
`fromAddress`. -/
def BranchesOnAddress (out : Except JSError MonoAssembly) (rc : Nat × Int) :
    Prop :=
  out = if rc.1 = 0 then Except.error ⟨failedLoadingMessage rc.2⟩
        else Except.ok (MonoAssembly.fromAddress rc.1)

/-- The (address, written status) pair the bridged `mono_assembly_load` call
produces inside `MonoAssembly.load rt name basedir st`. -/
def loadCallResult (rt : NativeRuntime) (st : St) (name : String) :
    Nat × Int :=
  rt.mono_assembly_load (rt.mono_assembly_name_new st.mem.nextFree)
    (st.mem.nextFree + (name.utf8ByteSize + 1) + Process.pointerSize)

/-- The (address, written status) pair the bridged `mono_assembly_load_full`
call produces inside `MonoAssembly.loadFull rt name basedir refOnly st`. -/
def loadFullCallResult (rt : NativeRuntime) (st : St) (name : String)
    (refOnly : Bool) : Nat × Int :=
  rt.mono_assembly_load_full (rt.mono_assembly_name_new st.mem.nextFree)
    (st.mem.nextFree + (name.utf8ByteSize + 1) + Process.pointerSize) refOnly

/-- The (address, written status) pair of the bridged call inside
`MonoAssembly.loadFrom rt image name st`. -/
def loadFromCallResult (rt : NativeRuntime) (st : St) (image : MonoImage) :
    Nat × Int :=
  rt.mono_assembly_load_from image.address (st.mem.nextFree + Process.pointerSize)

/-- The (address, written status) pair of the bridged call inside
`MonoAssembly.loadFromFull rt image name refOnly st`. -/
def loadFromFullCallResult (rt : NativeRuntime) (st : St) (image : MonoImage)
    (refOnly : Bool) : Nat × Int :=
  rt.mono_assembly_load_from_full image.address
    (st.mem.nextFree + Process.pointerSize) refOnly

/-- The (address, written status) pair of the bridged call inside
`MonoAssembly.loadWithPartialName rt name st`. -/
def loadWithPartialNameCallResult (rt : NativeRuntime) (st : St) :
    Nat × Int :=
  rt.mono_assembly_load_with_partial_name (st.mem.nextFree + Process.pointerSize)

/-- The address the bridged `mono_assembly_loaded` call returns inside
`MonoAssembly.loaded rt name st`. -/
def loadedCallResult (rt : NativeRuntime) (st : St) : Nat :=
  rt.mono_assembly_loaded (rt.mono_assembly_name_new st.mem.nextFree)

/-- One member of the load family of operations together with its host-side
arguments (the native runtime and the state are supplied at run time). -/
inductive LoadOp where
  | load (name basedir : String)
  | loadFull (name basedir : String) (refOnly : Bool)
  | loadFrom (image : MonoImage) (name : String)
  | loadFromFull (image : MonoImage) (name : String) (refOnly : Bool)
  | loadWithPartialName (name : String)

/-- Run a load-family operation. -/
def runOp (op : LoadOp) (rt : NativeRuntime) (st : St) :
    Except JSError MonoAssembly × St :=
  match op with
  | .load n b => MonoAssembly.load rt n b st
  | .loadFull n b ro => MonoAssembly.loadFull rt n b ro st
  | .loadFrom img n => MonoAssembly.loadFrom rt img n st
  | .loadFromFull img n ro => MonoAssembly.loadFromFull rt img n ro st
  | .loadWithPartialName n => MonoAssembly.loadWithPartialName rt n st

/-- The string inputs a load-family operation encodes. -/
def LoadOp.stringInputs : LoadOp → List String
  | .load n b => [n, b]
  | .loadFull n b _ => [n, b]
  | .loadFrom _ n => [n]
  | .loadFromFull _ n _ => [n]
  | .loadWithPartialName n => [n]

/-- The native symbol a load-family operation invokes for the load itself. -/
def LoadOp.symName : LoadOp → String
  | .load .. => "mono_assembly_load"
  | .loadFull .. => "mono_assembly_load_full"
  | .loadFrom .. => "mono_assembly_load_from"
  | .loadFromFull .. => "mono_assembly_load_from_full"
  | .loadWithPartialName .. => "mono_assembly_load_with_partial_name"

theorem load_run (rt : NativeRuntime) (st : St) (name basedir : String) :
    MonoAssembly.load rt name basedir st =
      (let nb := st.mem.nextFree
       let an := rt.mono_assembly_name_new nb
       let sl := nb + (name.utf8ByteSize + 1)
       let bb := sl + Process.pointerSize
       let rc := rt.mono_assembly_load an bb
       let ev := [Event.allocUtf8String name nb,
                  Event.nativeCall "mono_assembly_name_new" [.ptr nb] (some an),
                  Event.alloc Process.pointerSize sl,
                  Event.allocUtf8String basedir bb,
                  Event.nativeCall "mono_assembly_load"
                    [.ptr an, .ptr bb, .ptr sl] (some rc.1)]
       if rc.1 = 0 then
         (Except.error ⟨failedLoadingMessage rc.2⟩,
          ⟨⟨bb + (basedir.utf8ByteSize + 1), (st.mem.writeInt sl rc.2).store⟩,
           st.trace ++ ev ++ [Event.readInt sl rc.2]⟩)
       else
         (Except.ok (MonoAssembly.fromAddress rc.1),
          ⟨⟨bb + (basedir.utf8ByteSize + 1), (st.mem.writeInt sl rc.2).store⟩,
           st.trace ++ ev⟩)) := by
  simp only [MonoAssembly.load, Memory.allocUtf8String, Memory.alloc,
    NativeRuntime.call_name_new, NativeRuntime.call_load, readIntAt,
    Mem.writeInt]
  split <;> simp_all [Mem.writeInt, List.append_assoc]

theorem loadFull_run (rt : NativeRuntime) (st : St) (name basedir : String)
    (refOnly : Bool) :
    MonoAssembly.loadFull rt name basedir refOnly st =
      (let nb := st.mem.nextFree
       let an := rt.mono_assembly_name_new nb
       let sl := nb + (name.utf8ByteSize + 1)
       let bb := sl + Process.pointerSize
       let rc := rt.mono_assembly_load_full an bb refOnly
       let ev := [Event.allocUtf8String name nb,
                  Event.nativeCall "mono_assembly_name_new" [.ptr nb] (some an),
                  Event.alloc Process.pointerSize sl,
                  Event.allocUtf8String basedir bb,
                  Event.nativeCall "mono_assembly_load_full"
                    [.ptr an, .ptr bb, .ptr sl, .flag refOnly] (some rc.1)]
       if rc.1 = 0 then
         (Except.error ⟨failedLoadingMessage rc.2⟩,
          ⟨⟨bb + (basedir.utf8ByteSize + 1), (st.mem.writeInt sl rc.2).store⟩,
           st.trace ++ ev ++ [Event.readInt sl rc.2]⟩)
       else
         (Except.ok (MonoAssembly.fromAddress rc.1),
          ⟨⟨bb + (basedir.utf8ByteSize + 1), (st.mem.writeInt sl rc.2).store⟩,
           st.trace ++ ev⟩)) := by
  simp only [MonoAssembly.loadFull, Memory.allocUtf8String, Memory.alloc,
    NativeRuntime.call_name_new, NativeRuntime.call_load_full, readIntAt,
    Mem.writeInt]
  split <;> simp_all [Mem.writeInt, List.append_assoc]

theorem loaded_run (rt : NativeRuntime) (st : St) (name : String) :
    MonoAssembly.loaded rt name st =
      (let nb := st.mem.nextFree
       let an := rt.mono_assembly_name_new nb
       let r := rt.mono_assembly_loaded an
       (Except.ok (MonoAssembly.fromAddress r),
        ⟨⟨nb + (name.utf8ByteSize + 1), st.mem.store⟩,
         st.trace ++ [Event.allocUtf8String name nb,
                      Event.nativeCall "mono_assembly_name_new" [.ptr nb] (some an),
                      Event.nativeCall "mono_assembly_loaded" [.ptr an] (some r)]⟩)) := by
  simp [MonoAssembly.loaded, Memory.allocUtf8String,
    NativeRuntime.call_name_new, NativeRuntime.call_loaded]

theorem loadFrom_run (rt : NativeRuntime) (st : St) (image : MonoImage)
    (name : String) :
    MonoAssembly.loadFrom rt image name st =
      (let sl := st.mem.nextFree
       let nb := sl + Process.pointerSize
       let rc := rt.mono_assembly_load_from image.address nb
       let ev := [Event.alloc Process.pointerSize sl,
                  Event.allocUtf8String name nb,
                  Event.nativeCall "mono_assembly_load_from"
                    [.ptr image.address, .ptr nb, .ptr sl] (some rc.1)]
       if rc.1 = 0 then
         (Except.error ⟨failedLoadingMessage rc.2⟩,
          ⟨⟨nb + (name.utf8ByteSize + 1), (st.mem.writeInt sl rc.2).store⟩,
           st.trace ++ ev ++ [Event.readInt sl rc.2]⟩)
       else
         (Except.ok (MonoAssembly.fromAddress rc.1),
          ⟨⟨nb + (name.utf8ByteSize + 1), (st.mem.writeInt sl rc.2).store⟩,
           st.trace ++ ev⟩)) := by
  simp only [MonoAssembly.loadFrom, Memory.allocUtf8String, Memory.alloc,
    NativeRuntime.call_load_from, readIntAt, Mem.writeInt]
  split <;> simp_all [Mem.writeInt, List.append_assoc]

theorem loadFromFull_run (rt : NativeRuntime) (st : St) (image : MonoImage)
    (name : String) (refOnly : Bool) :
    MonoAssembly.loadFromFull rt image name refOnly st =
      (let sl := st.mem.nextFree
       let nb := sl + Process.pointerSize
       let rc := rt.mono_assembly_load_from_full image.address nb refOnly
       let ev := [Event.alloc Process.pointerSize sl,
                  Event.allocUtf8String name nb,
                  Event.nativeCall "mono_assembly_load_from_full"
                    [.ptr image.address, .ptr nb, .ptr sl, .flag refOnly]
                    (some rc.1)]
       if rc.1 = 0 then
         (Except.error ⟨failedLoadingMessage rc.2⟩,
          ⟨⟨nb + (name.utf8ByteSize + 1), (st.mem.writeInt sl rc.2).store⟩,
           st.trace ++ ev ++ [Event.readInt sl rc.2]⟩)
       else
         (Except.ok (MonoAssembly.fromAddress rc.1),
          ⟨⟨nb + (name.utf8ByteSize + 1), (st.mem.writeInt sl rc.2).store⟩,
           st.trace ++ ev⟩)) := by
  simp only [MonoAssembly.loadFromFull, Memory.allocUtf8String, Memory.alloc,
    NativeRuntime.call_load_from_full, readIntAt, Mem.writeInt]
  split <;> simp_all [Mem.writeInt, List.append_assoc]

theorem loadWithPartialName_run (rt : NativeRuntime) (st : St)
    (name : String) :
    MonoAssembly.loadWithPartialName rt name st =
      (let sl := st.mem.nextFree
       let nb := sl + Process.pointerSize
       let rc := rt.mono_assembly_load_with_partial_name nb
       let ev := [Event.alloc Process.pointerSize sl,
                  Event.allocUtf8String name nb,
                  Event.nativeCall "mono_assembly_load_with_partial_name"
                    [.ptr nb, .ptr sl] (some rc.1)]
       if rc.1 = 0 then
         (Except.error ⟨failedLoadingMessage rc.2⟩,
          ⟨⟨nb + (name.utf8ByteSize + 1), (st.mem.writeInt sl rc.2).store⟩,
           st.trace ++ ev ++ [Event.readInt sl rc.2]⟩)
       else
         (Except.ok (MonoAssembly.fromAddress rc.1),
          ⟨⟨nb + (name.utf8ByteSize + 1), (st.mem.writeInt sl rc.2).store⟩,
           st.trace ++ ev⟩)) := by
  simp only [MonoAssembly.loadWithPartialName, Memory.allocUtf8String,
    Memory.alloc, NativeRuntime.call_load_with_partial_name, readIntAt,
    Mem.writeInt]
  split <;> simp_all [Mem.writeInt, List.append_assoc]

theorem newEvents_load (rt : NativeRuntime) (st : St) (name basedir : String) :
    newEvents st (MonoAssembly.load rt name basedir st).2 =
      [Event.allocUtf8String name st.mem.nextFree,
       Event.nativeCall "mono_assembly_name_new"
         [.ptr st.mem.nextFree] (some (rt.mono_assembly_name_new st.mem.nextFree)),
       Event.alloc Process.pointerSize (st.mem.nextFree + (name.utf8ByteSize + 1)),
       Event.allocUtf8String basedir
         (st.mem.nextFree + (name.utf8ByteSize + 1) + Process.pointerSize),
       Event.nativeCall "mono_assembly_load"
         [.ptr (rt.mono_assembly_name_new st.mem.nextFree),
          .ptr (st.mem.nextFree + (name.utf8ByteSize + 1) + Process.pointerSize),
          .ptr (st.mem.nextFree + (name.utf8ByteSize + 1))]
         (some (loadCallResult rt st name).1)] ++
      (if (loadCallResult rt st name).1 = 0 then
        [Event.readInt (st.mem.nextFree + (name.utf8ByteSize + 1))
          (loadCallResult rt st name).2]
       else []) := by
  by_cases h : (loadCallResult rt st name).1 = 0 <;>
    simp_all [newEvents, load_run, loadCallResult, List.drop_left]

theorem newEvents_loadFull (rt : NativeRuntime) (st : St)
    (name basedir : String) (refOnly : Bool) :
    newEvents st (MonoAssembly.loadFull rt name basedir refOnly st).2 =
      [Event.allocUtf8String name st.mem.nextFree,
       Event.nativeCall "mono_assembly_name_new"
         [.ptr st.mem.nextFree] (some (rt.mono_assembly_name_new st.mem.nextFree)),
       Event.alloc Process.pointerSize (st.mem.nextFree + (name.utf8ByteSize + 1)),
       Event.allocUtf8String basedir
         (st.mem.nextFree + (name.utf8ByteSize + 1) + Process.pointerSize),
       Event.nativeCall "mono_assembly_load_full"
         [.ptr (rt.mono_assembly_name_new st.mem.nextFree),
          .ptr (st.mem.nextFree + (name.utf8ByteSize + 1) + Process.pointerSize),
          .ptr (st.mem.nextFree + (name.utf8ByteSize + 1)), .flag refOnly]
         (some (loadFullCallResult rt st name refOnly).1)] ++
      (if (loadFullCallResult rt st name refOnly).1 = 0 then
        [Event.readInt (st.mem.nextFree + (name.utf8ByteSize + 1))
          (loadFullCallResult rt st name refOnly).2]
       else []) := by
  by_cases h : (loadFullCallResult rt st name refOnly).1 = 0 <;>
    simp_all [newEvents, loadFull_run, loadFullCallResult, List.drop_left]

theorem newEvents_loadFrom (rt : NativeRuntime) (st : St) (image : MonoImage)
    (name : String) :
    newEvents st (MonoAssembly.loadFrom rt image name st).2 =
      [Event.alloc Process.pointerSize st.mem.nextFree,
       Event.allocUtf8String name (st.mem.nextFree + Process.pointerSize),
       Event.nativeCall "mono_assembly_load_from"
         [.ptr image.address, .ptr (st.mem.nextFree + Process.pointerSize),
          .ptr st.mem.nextFree]
         (some (loadFromCallResult rt st image).1)] ++
      (if (loadFromCallResult rt st image).1 = 0 then
        [Event.readInt st.mem.nextFree (loadFromCallResult rt st image).2]
       else []) := by
  by_cases h : (loadFromCallResult rt st image).1 = 0 <;>
    simp_all [newEvents, loadFrom_run, loadFromCallResult, List.drop_left]

theorem newEvents_loadFromFull (rt : NativeRuntime) (st : St)
    (image : MonoImage) (name : String) (refOnly : Bool) :
    newEvents st (MonoAssembly.loadFromFull rt image name refOnly st).2 =
      [Event.alloc Process.pointerSize st.mem.nextFree,
       Event.allocUtf8String name (st.mem.nextFree + Process.pointerSize),
       Event.nativeCall "mono_assembly_load_from_full"
         [.ptr image.address, .ptr (st.mem.nextFree + Process.pointerSize),
          .ptr st.mem.nextFree, .flag refOnly]
         (some (loadFromFullCallResult rt st image refOnly).1)] ++
      (if (loadFromFullCallResult rt st image refOnly).1 = 0 then
        [Event.readInt st.mem.nextFree (loadFromFullCallResult rt st image refOnly).2]
       else []) := by
  by_cases h : (loadFromFullCallResult rt st image refOnly).1 = 0 <;>
    simp_all [newEvents, loadFromFull_run, loadFromFullCallResult, List.drop_left]

theorem newEvents_loadWithPartialName (rt : NativeRuntime) (st : St)
    (name : String) :
    newEvents st (MonoAssembly.loadWithPartialName rt name st).2 =
      [Event.alloc Process.pointerSize st.mem.nextFree,
       Event.allocUtf8String name (st.mem.nextFree + Process.pointerSize),
       Event.nativeCall "mono_assembly_load_with_partial_name"
         [.ptr (st.mem.nextFree + Process.pointerSize), .ptr st.mem.nextFree]
         (some (loadWithPartialNameCallResult rt st).1)] ++
      (if (loadWithPartialNameCallResult rt st).1 = 0 then
        [Event.readInt st.mem.nextFree (loadWithPartialNameCallResult rt st).2]
       else []) := by
  by_cases h : (loadWithPartialNameCallResult rt st).1 = 0 <;>
    simp_all [newEvents, loadWithPartialName_run, loadWithPartialNameCallResult,
      List.drop_left]

theorem newEvents_loaded (rt : NativeRuntime) (st : St) (name : String) :
    newEvents st (MonoAssembly.loaded rt name st).2 =
      [Event.allocUtf8String name st.mem.nextFree,
       Event.nativeCall "mono_assembly_name_new"
         [.ptr st.mem.nextFree] (some (rt.mono_assembly_name_new st.mem.nextFree)),
       Event.nativeCall "mono_assembly_loaded"
         [.ptr (rt.mono_assembly_name_new st.mem.nextFree)]
         (some (loadedCallResult rt st))] := by
  simp [newEvents, loaded_run, loadedCallResult, List.drop_left]

theorem runOp_alloc_bounds (op : LoadOp) (rt : NativeRuntime) (st : St) :
    ∀ a ∈ allocatedAddrs st (runOp op rt st).2,
      st.mem.nextFree ≤ a ∧ a < (runOp op rt st).2.mem.nextFree := by
  intro a ha
  cases op with
  | load n b =>
    simp only [runOp, allocatedAddrs, newEvents_load] at ha
    by_cases h : (loadCallResult rt st n).1 = 0 <;>
      simp_all [runOp, load_run, Event.allocAddr, Process.pointerSize,
        loadCallResult] <;>
      rcases ha with rfl | rfl | rfl <;> omega
  | loadFull n b ro =>
    simp only [runOp, allocatedAddrs, newEvents_loadFull] at ha
    by_cases h : (loadFullCallResult rt st n ro).1 = 0 <;>
      simp_all [runOp, loadFull_run, Event.allocAddr, Process.pointerSize,
        loadFullCallResult] <;>
      rcases ha with rfl | rfl | rfl <;> omega
  | loadFrom img n =>
    simp only [runOp, allocatedAddrs, newEvents_loadFrom] at ha
    by_cases h : (loadFromCallResult rt st img).1 = 0 <;>
      simp_all [runOp, loadFrom_run, Event.allocAddr, Process.pointerSize,
        loadFromCallResult] <;>
      rcases ha with rfl | rfl <;> omega
  | loadFromFull img n ro =>
    simp only [runOp, allocatedAddrs, newEvents_loadFromFull] at ha
    by_cases h : (loadFromFullCallResult rt st img ro).1 = 0 <;>
      simp_all [runOp, loadFromFull_run, Event.allocAddr, Process.pointerSize,
        loadFromFullCallResult] <;>
      rcases ha with rfl | rfl <;> omega
  | loadWithPartialName n =>
    simp only [runOp, allocatedAddrs, newEvents_loadWithPartialName] at ha
    by_cases h : (loadWithPartialNameCallResult rt st).1 = 0 <;>
      simp_all [runOp, loadWithPartialName_run, Event.allocAddr,
        Process.pointerSize, loadWithPartialNameCallResult] <;>
      rcases ha with rfl | rfl <;> omega

theorem runOp_nextFree_mono (op : LoadOp) (rt : NativeRuntime) (st : St) :
    st.mem.nextFree ≤ (runOp op rt st).2.mem.nextFree := by
  cases op with
  | load n b =>
    by_cases h : (loadCallResult rt st n).1 = 0 <;>
      simp_all [runOp, load_run, Process.pointerSize, loadCallResult] <;> omega
  | loadFull n b ro =>
    by_cases h : (loadFullCallResult rt st n ro).1 = 0 <;>
      simp_all [runOp, loadFull_run, Process.pointerSize, loadFullCallResult] <;>
      omega
  | loadFrom img n =>
    by_cases h : (loadFromCallResult rt st img).1 = 0 <;>
      simp_all [runOp, loadFrom_run, Process.pointerSize, loadFromCallResult] <;>
      omega
  | loadFromFull img n ro =>
    by_cases h : (loadFromFullCallResult rt st img ro).1 = 0 <;>
      simp_all [runOp, loadFromFull_run, Process.pointerSize,
        loadFromFullCallResult] <;> omega
  | loadWithPartialName n =>
    by_cases h : (loadWithPartialNameCallResult rt st).1 = 0 <;>
      simp_all [runOp, loadWithPartialName_run, Process.pointerSize,
        loadWithPartialNameCallResult] <;> omega

/-- Claim C1: for every loading operation in the load family (`load`,
`loadFull`, `loadFrom`, `loadFromFull`, `loadWithPartialName`) and every
input (any native runtime behaviour, any state, any strings, image and
flag), if the bridged native call returns a null address the operation
throws an error whose message carries the status label decoded from the
status slot, and if it returns a non-null address the operation returns the
`MonoAssembly` facade built from that address by `fromAddress`. -/
theorem claim_C1_load_family_branching (rt : NativeRuntime) (st : St)
    (name basedir : String) (image : MonoImage) (refOnly : Bool) :
    BranchesOnAddress (MonoAssembly.load rt name basedir st).1
      (loadCallResult rt st name) ∧
    BranchesOnAddress (MonoAssembly.loadFull rt name basedir refOnly st).1
      (loadFullCallResult rt st name refOnly) ∧
    BranchesOnAddress (MonoAssembly.loadFrom rt image name st).1
      (loadFromCallResult rt st image) ∧
    BranchesOnAddress (MonoAssembly.loadFromFull rt image name refOnly st).1
      (loadFromFullCallResult rt st image refOnly) ∧
    BranchesOnAddress (MonoAssembly.loadWithPartialName rt name st).1
      (loadWithPartialNameCallResult rt st) := by
  refine ⟨?_, ?_, ?_, ?_, ?_⟩
  · by_cases h : (loadCallResult rt st name).1 = 0 <;>
      simp_all [BranchesOnAddress, load_run, loadCallResult]
  · by_cases h : (loadFullCallResult rt st name refOnly).1 = 0 <;>
      simp_all [BranchesOnAddress, loadFull_run, loadFullCallResult]
  · by_cases h : (loadFromCallResult rt st image).1 = 0 <;>
      simp_all [BranchesOnAddress, loadFrom_run, loadFromCallResult]
  · by_cases h : (loadFromFullCallResult rt st image refOnly).1 = 0 <;>
      simp_all [BranchesOnAddress, loadFromFull_run, loadFromFullCallResult]
  · by_cases h : (loadWithPartialNameCallResult rt st).1 = 0 <;>
      simp_all [BranchesOnAddress, loadWithPartialName_run,
        loadWithPartialNameCallResult]

/-- Claim C2: for every input and native behaviour (in particular for every
(name, basedir) pair and every integer value the callee leaves in the status
slot), `MonoAssembly.load` either returns a facade whose address is non-null
— and, the `address` accessor being a pure projection, repeated reads of it
coincide — or throws a classified error whose message carries one of the
enumerated status labels (a `StatusLabel`, which subsumes the distinguishable
`unknown` label), never an unrecognized or raw code. -/
theorem claim_C2_load_total_outcomes (rt : NativeRuntime) (st : St)
    (name basedir : String) :
    (∃ asm : MonoAssembly,
       (MonoAssembly.load rt name basedir st).1 = Except.ok asm ∧
       asm.address ≠ 0 ∧ asm = MonoAssembly.fromAddress asm.address) ∨
    (∃ label : StatusLabel,
       (MonoAssembly.load rt name basedir st).1 =
         Except.error ⟨"Failed loading MonoAssembly! Error: " ++ label.text⟩) := by
  by_cases h : (loadCallResult rt st name).1 = 0
  · right
    refine ⟨MonoImageOpenStatus (loadCallResult rt st name).2, ?_⟩
    simp_all [load_run, loadCallResult, failedLoadingMessage]
  · left
    refine ⟨MonoAssembly.fromAddress (loadCallResult rt st name).1, ?_, h, rfl⟩
    simp_all [load_run, loadCallResult]

/-- Claim C3: `MonoAssembly.loaded` never throws — for every native behaviour
it returns `Except.ok` of the facade wrapping the address the native call
returned; when that address is null (the name was never loaded) the result is
the absent representation, the facade wrapping the null address; when it is
non-null (the name was previously loaded) the returned facade has a non-null
address. -/
theorem claim_C3_loaded_never_throws (rt : NativeRuntime) (st : St)
    (name : String) :
    (MonoAssembly.loaded rt name st).1 =
      Except.ok (MonoAssembly.fromAddress (loadedCallResult rt st)) ∧
    (loadedCallResult rt st = 0 →
      (MonoAssembly.loaded rt name st).1 =
        Except.ok (MonoAssembly.fromAddress 0)) ∧
    (loadedCallResult rt st ≠ 0 →
      ∃ asm : MonoAssembly,
        (MonoAssembly.loaded rt name st).1 = Except.ok asm ∧
        asm.address ≠ 0) := by
  refine ⟨?_, ?_, ?_⟩
  · simp [loaded_run, loadedCallResult]
  · intro h
    simp only [loadedCallResult] at h
    simp [loaded_run, h]
  · intro h
    exact ⟨MonoAssembly.fromAddress (loadedCallResult rt st),
      by simp [loaded_run, loadedCallResult], h⟩

theorem claim_C3_witness :
    (MonoAssembly.loaded rtFail "Baz" st0).1 =
      Except.ok (MonoAssembly.fromAddress 0) ∧
    (∃ asm : MonoAssembly,
       (MonoAssembly.loaded rtOk "Baz" st0).1 = Except.ok asm ∧
       asm.address ≠ 0) :=
  ⟨(claim_C3_loaded_never_throws rtFail st0 "Baz").2.1 (by decide),
   (claim_C3_loaded_never_throws rtOk st0 "Baz").2.2 (by decide)⟩

/-- Claim C4: for every address value `a`, including one not referencing a
real native object, `fromAddress a` followed by reading the `address`
accessor returns exactly `a` (round-trip identity); `fromAddress` is a pure
local construction — it takes no native runtime and no state, so it performs
no native call and no validation. -/
theorem claim_C4_fromAddress_roundtrip (a : Nat) :
    (MonoAssembly.fromAddress a).address = a := rfl

/-- Claim C5: two facades built by `fromAddress` are equal exactly when their
addresses are equal (two handles denote the same native object iff their
addresses coincide), and consequently every operation that depends only on
the address treats facades with equal addresses identically. -/
theorem claim_C5_address_identity (a b : Nat) :
    (MonoAssembly.fromAddress a = MonoAssembly.fromAddress b ↔ a = b) ∧
    (∀ (f : MonoAssembly → Except JSError MonoAssembly), a = b →
       f (MonoAssembly.fromAddress a) = f (MonoAssembly.fromAddress b)) := by
  constructor
  · constructor
    · intro h
      exact congrArg MonoAssembly.address h
    · intro h
      rw [h]
  · intro f h
    rw [h]

theorem claim_C5_witness :
    (MonoAssembly.fromAddress 4096 = MonoAssembly.fromAddress 4096 ↔
      (4096 : Nat) = 4096) ∧
    (Except.ok (MonoAssembly.fromAddress 4096) :
        Except JSError MonoAssembly) =
      Except.ok (MonoAssembly.fromAddress 4096) :=
  ⟨(claim_C5_address_identity 4096 4096).1,
   (claim_C5_address_identity 4096 4096).2 Except.ok rfl⟩

/-- Claim C6: the status decoder is a total pure mapping — for every integer
code it yields a `StatusLabel` (by totality of the function) and never
throws; it yields the distinguishable `unknown` label exactly on the codes
outside the enumerated domain 0..3, so an out-of-domain code maps to
`unknown` and an in-domain code never does. -/
theorem claim_C6_decoder_total (code : Int) :
    (MonoImageOpenStatus code = StatusLabel.unknown ↔ code < 0 ∨ 3 < code) ∧
    (∀ l : StatusLabel, l ≠ StatusLabel.unknown →
       l.text ≠ StatusLabel.unknown.text) := by
  refine ⟨?_, ?_⟩
  · simp only [MonoImageOpenStatus]
    split_ifs with h1 h2 h3 h4 <;> simp_all
    omega
  · intro l hl
    cases l <;> simp_all [StatusLabel.text]

theorem claim_C6_witness :
    MonoImageOpenStatus 9 = StatusLabel.unknown ∧
    StatusLabel.MONO_IMAGE_MISSING_ASSEMBLYREF.text ≠ StatusLabel.unknown.text :=
  ⟨(claim_C6_decoder_total 9).1.mpr (by omega),
   (claim_C6_decoder_total 9).2 StatusLabel.MONO_IMAGE_MISSING_ASSEMBLYREF
     (by decide)⟩

/-- Claim C7: on every invocation of a load-family operation, each string
input is encoded into a freshly allocated null-terminated UTF-8 scratch
buffer, a fresh status slot of one machine word is allocated before the
bridged native call, the status slot is read exactly in the failure branch
(when the returned address is null), and no scratch address is reused: the
addresses allocated by one invocation are pairwise distinct, lie in the
fresh region claimed by this invocation, and are disjoint from those of any
subsequent invocation. -/
theorem claim_C7_scratch_discipline (op : LoadOp) (rt : NativeRuntime)
    (st : St) :
    (∀ s ∈ op.stringInputs,
       ∃ a, Event.allocUtf8String s a ∈ newEvents st (runOp op rt st).2) ∧
    (∃ pre args r slot c rest,
       newEvents st (runOp op rt st).2 =
         pre ++ [Event.nativeCall op.symName args (some r)] ++ rest ∧
       Event.alloc Process.pointerSize slot ∈ pre ∧
       rest = if r = 0 then [Event.readInt slot c] else []) ∧
    (allocatedAddrs st (runOp op rt st).2).Nodup ∧
    (∀ a ∈ allocatedAddrs st (runOp op rt st).2,
       st.mem.nextFree ≤ a ∧ a < (runOp op rt st).2.mem.nextFree) ∧
    (∀ op2 : LoadOp, ∀ a ∈ allocatedAddrs st (runOp op rt st).2,
       a ∉ allocatedAddrs (runOp op rt st).2
             (runOp op2 rt (runOp op rt st).2).2) := by
  refine ⟨?_, ?_, ?_, runOp_alloc_bounds op rt st, ?_⟩
  · cases op with
    | load n b =>
      intro s hs
      simp only [LoadOp.stringInputs, List.mem_cons, List.mem_singleton,
        List.not_mem_nil, or_false] at hs
      rcases hs with rfl | rfl
      · exact ⟨st.mem.nextFree, by simp [runOp, newEvents_load]⟩
      · exact ⟨st.mem.nextFree + (n.utf8ByteSize + 1) + Process.pointerSize,
          by simp [runOp, newEvents_load]⟩
    | loadFull n b ro =>
      intro s hs
      simp only [LoadOp.stringInputs, List.mem_cons, List.mem_singleton,
        List.not_mem_nil, or_false] at hs
      rcases hs with rfl | rfl
      · exact ⟨st.mem.nextFree, by simp [runOp, newEvents_loadFull]⟩
      · exact ⟨st.mem.nextFree + (n.utf8ByteSize + 1) + Process.pointerSize,
          by simp [runOp, newEvents_loadFull]⟩
    | loadFrom img n =>
      intro s hs
      simp only [LoadOp.stringInputs, List.mem_singleton] at hs
      subst hs
      exact ⟨st.mem.nextFree + Process.pointerSize,
        by simp [runOp, newEvents_loadFrom]⟩
    | loadFromFull img n ro =>
      intro s hs
      simp only [LoadOp.stringInputs, List.mem_singleton] at hs
      subst hs
      exact ⟨st.mem.nextFree + Process.pointerSize,
        by simp [runOp, newEvents_loadFromFull]⟩
    | loadWithPartialName n =>
      intro s hs
      simp only [LoadOp.stringInputs, List.mem_singleton] at hs
      subst hs
      exact ⟨st.mem.nextFree + Process.pointerSize,
        by simp [runOp, newEvents_loadWithPartialName]⟩
  · cases op with
    | load n b =>
      refine ⟨[Event.allocUtf8String n st.mem.nextFree,
               Event.nativeCall "mono_assembly_name_new" [.ptr st.mem.nextFree]
                 (some (rt.mono_assembly_name_new st.mem.nextFree)),
               Event.alloc Process.pointerSize
                 (st.mem.nextFree + (n.utf8ByteSize + 1)),
               Event.allocUtf8String b
                 (st.mem.nextFree + (n.utf8ByteSize + 1) + Process.pointerSize)],
              [.ptr (rt.mono_assembly_name_new st.mem.nextFree),
               .ptr (st.mem.nextFree + (n.utf8ByteSize + 1) + Process.pointerSize),
               .ptr (st.mem.nextFree + (n.utf8ByteSize + 1))],
              (loadCallResult rt st n).1,
              st.mem.nextFree + (n.utf8ByteSize + 1),
              (loadCallResult rt st n).2, _, ?_, by simp, rfl⟩
      simp [runOp, newEvents_load, LoadOp.symName, List.append_assoc]
    | loadFull n b ro =>
      refine ⟨[Event.allocUtf8String n st.mem.nextFree,
               Event.nativeCall "mono_assembly_name_new" [.ptr st.mem.nextFree]
                 (some (rt.mono_assembly_name_new st.mem.nextFree)),
               Event.alloc Process.pointerSize
                 (st.mem.nextFree + (n.utf8ByteSize + 1)),
               Event.allocUtf8String b
                 (st.mem.nextFree + (n.utf8ByteSize + 1) + Process.pointerSize)],
              [.ptr (rt.mono_assembly_name_new st.mem.nextFree),
               .ptr (st.mem.nextFree + (n.utf8ByteSize + 1) + Process.pointerSize),
               .ptr (st.mem.nextFree + (n.utf8ByteSize + 1)), .flag ro],
              (loadFullCallResult rt st n ro).1,
              st.mem.nextFree + (n.utf8ByteSize + 1),
              (loadFullCallResult rt st n ro).2, _, ?_, by simp, rfl⟩
      simp [runOp, newEvents_loadFull, LoadOp.symName, List.append_assoc]
    | loadFrom img n =>
      refine ⟨[Event.alloc Process.pointerSize st.mem.nextFree,
               Event.allocUtf8String n (st.mem.nextFree + Process.pointerSize)],
              [.ptr img.address, .ptr (st.mem.nextFree + Process.pointerSize),
               .ptr st.mem.nextFree],
              (loadFromCallResult rt st img).1, st.mem.nextFree,
              (loadFromCallResult rt st img).2, _, ?_, by simp, rfl⟩
      simp [runOp, newEvents_loadFrom, LoadOp.symName, List.append_assoc]
    | loadFromFull img n ro =>
      refine ⟨[Event.alloc Process.pointerSize st.mem.nextFree,
               Event.allocUtf8String n (st.mem.nextFree + Process.pointerSize)],
              [.ptr img.address, .ptr (st.mem.nextFree + Process.pointerSize),
               .ptr st.mem.nextFree, .flag ro],
              (loadFromFullCallResult rt st img ro).1, st.mem.nextFree,
              (loadFromFullCallResult rt st img ro).2, _, ?_, by simp, rfl⟩
      simp [runOp, newEvents_loadFromFull, LoadOp.symName, List.append_assoc]
    | loadWithPartialName n =>
      refine ⟨[Event.alloc Process.pointerSize st.mem.nextFree,
               Event.allocUtf8String n (st.mem.nextFree + Process.pointerSize)],
              [.ptr (st.mem.nextFree + Process.pointerSize), .ptr st.mem.nextFree],
              (loadWithPartialNameCallResult rt st).1, st.mem.nextFree,
              (loadWithPartialNameCallResult rt st).2, _, ?_, by simp, rfl⟩
      simp [runOp, newEvents_loadWithPartialName, LoadOp.symName,
        List.append_assoc]
  · cases op with
    | load n b =>
      by_cases h : (loadCallResult rt st n).1 = 0 <;>
        simp_all [runOp, allocatedAddrs, newEvents_load, Event.allocAddr,
          Process.pointerSize, List.filterMap_append] <;> omega
    | loadFull n b ro =>
      by_cases h : (loadFullCallResult rt st n ro).1 = 0 <;>
        simp_all [runOp, allocatedAddrs, newEvents_loadFull, Event.allocAddr,
          Process.pointerSize, List.filterMap_append] <;> omega
    | loadFrom img n =>
      by_cases h : (loadFromCallResult rt st img).1 = 0 <;>
        simp_all [runOp, allocatedAddrs, newEvents_loadFrom, Event.allocAddr,
          Process.pointerSize, List.filterMap_append]
    | loadFromFull img n ro =>
      by_cases h : (loadFromFullCallResult rt st img ro).1 = 0 <;>
        simp_all [runOp, allocatedAddrs, newEvents_loadFromFull,
          Event.allocAddr, Process.pointerSize, List.filterMap_append]
    | loadWithPartialName n =>
      by_cases h : (loadWithPartialNameCallResult rt st).1 = 0 <;>
        simp_all [runOp, allocatedAddrs, newEvents_loadWithPartialName,
          Event.allocAddr, Process.pointerSize, List.filterMap_append]
  · intro op2 a ha hmem
    have h1 := runOp_alloc_bounds op rt st a ha
    have h2 := runOp_alloc_bounds op2 rt (runOp op rt st).2 a hmem
    omega

theorem claim_C7_witness :
    (∃ a, Event.allocUtf8String "Foo" a ∈
       newEvents st0 (runOp (LoadOp.load "Foo" "/libs") rtFail st0).2) ∧
    ((st0.mem.nextFree ≤ 5 ∧
       5 < (runOp (LoadOp.load "Foo" "/libs") rtFail st0).2.mem.nextFree)) ∧
    1 ∉ allocatedAddrs (runOp (LoadOp.load "Foo" "/libs") rtFail st0).2
          (runOp (LoadOp.loadWithPartialName "Bar") rtFail
            (runOp (LoadOp.load "Foo" "/libs") rtFail st0).2).2 :=
  ⟨(claim_C7_scratch_discipline (LoadOp.load "Foo" "/libs") rtFail st0).1
     "Foo" (by decide),
   (claim_C7_scratch_discipline (LoadOp.load "Foo" "/libs") rtFail st0).2.2.2.1
     5 (by decide),
   (claim_C7_scratch_discipline (LoadOp.load "Foo" "/libs") rtFail st0).2.2.2.2
     (LoadOp.loadWithPartialName "Bar") 1 (by decide)⟩

/-- Claim C8, counterexample: the claim states that all six variants,
`loaded` included, allocate a status slot and branch on the returned
address. On the concrete input below, `loaded` allocates no status slot at
all (its fresh events contain no raw allocation) and does not branch: with
the native call returning the null address it still returns the facade
wrapping null instead of raising. -/
theorem claim_C8_counterexample :
    (newEvents st0 (MonoAssembly.loaded rtFail "Foo" st0).2).filter
        Event.isAlloc = [] ∧
    (MonoAssembly.loaded rtFail "Foo" st0).1 =
      Except.ok (MonoAssembly.fromAddress 0) :=
  ⟨rfl, rfl⟩

/-- Claim C8 as amended: the five load variants (`load`, `loadFull`,
`loadFrom`, `loadFromFull`, `loadWithPartialName`) follow an identical
control skeleton — encode inputs, allocate a one-word status slot, invoke
the variant's native symbol, then branch on the returned address, reading
the status slot exactly on failure — differing only in which native symbol
is invoked, which inputs are encoded, and which extra flag is forwarded;
`loaded` shares the encode-and-invoke steps but allocates no status slot,
never reads a status code, and performs no branch: it wraps the returned
address, null included, as a valid non-error outcome. -/
theorem claim_C8_amended_skeleton (op : LoadOp) (rt : NativeRuntime)
    (st : St) (name : String) :
    (∃ pre args r slot c,
       newEvents st (runOp op rt st).2 =
         pre ++ [Event.nativeCall op.symName args (some r)] ++
           (if r = 0 then [Event.readInt slot c] else []) ∧
       Event.alloc Process.pointerSize slot ∈ pre ∧
       (runOp op rt st).1 =
         (if r = 0 then Except.error ⟨failedLoadingMessage c⟩
          else Except.ok (MonoAssembly.fromAddress r))) ∧
    (∃ pre args r,
       newEvents st (MonoAssembly.loaded rt name st).2 =
         pre ++ [Event.nativeCall "mono_assembly_loaded" args (some r)] ∧
       (∀ e ∈ newEvents st (MonoAssembly.loaded rt name st).2,
          e.isAlloc = false ∧ e.isReadInt = false) ∧
       (MonoAssembly.loaded rt name st).1 =
         Except.ok (MonoAssembly.fromAddress r)) := by
  constructor
  · cases op with
    | load n b =>
      refine ⟨[Event.allocUtf8String n st.mem.nextFree,
               Event.nativeCall "mono_assembly_name_new" [.ptr st.mem.nextFree]
                 (some (rt.mono_assembly_name_new st.mem.nextFree)),
               Event.alloc Process.pointerSize
                 (st.mem.nextFree + (n.utf8ByteSize + 1)),
               Event.allocUtf8String b
                 (st.mem.nextFree + (n.utf8ByteSize + 1) + Process.pointerSize)],
              [.ptr (rt.mono_assembly_name_new st.mem.nextFree),
               .ptr (st.mem.nextFree + (n.utf8ByteSize + 1) + Process.pointerSize),
               .ptr (st.mem.nextFree + (n.utf8ByteSize + 1))],
              (loadCallResult rt st n).1,
              st.mem.nextFree + (n.utf8ByteSize + 1),
              (loadCallResult rt st n).2, ?_, by simp, ?_⟩
      · simp [runOp, newEvents_load, LoadOp.symName, List.append_assoc]
      · by_cases h : (loadCallResult rt st n).1 = 0 <;>
          · simp only [loadCallResult] at h
            simp_all [runOp, load_run, loadCallResult]
    | loadFull n b ro =>
      refine ⟨[Event.allocUtf8String n st.mem.nextFree,
               Event.nativeCall "mono_assembly_name_new" [.ptr st.mem.nextFree]
                 (some (rt.mono_assembly_name_new st.mem.nextFree)),
               Event.alloc Process.pointerSize
                 (st.mem.nextFree + (n.utf8ByteSize + 1)),
               Event.allocUtf8String b
                 (st.mem.nextFree + (n.utf8ByteSize + 1) + Process.pointerSize)],
              [.ptr (rt.mono_assembly_name_new st.mem.nextFree),
               .ptr (st.mem.nextFree + (n.utf8ByteSize + 1) + Process.pointerSize),
               .ptr (st.mem.nextFree + (n.utf8ByteSize + 1)), .flag ro],
              (loadFullCallResult rt st n ro).1,
              st.mem.nextFree + (n.utf8ByteSize + 1),
              (loadFullCallResult rt st n ro).2, ?_, by simp, ?_⟩
      · simp [runOp, newEvents_loadFull, LoadOp.symName, List.append_assoc]
      · by_cases h : (loadFullCallResult rt st n ro).1 = 0 <;>
          · simp only [loadFullCallResult] at h
            simp_all [runOp, loadFull_run, loadFullCallResult]
    | loadFrom img n =>
      refine ⟨[Event.alloc Process.pointerSize st.mem.nextFree,
               Event.allocUtf8String n (st.mem.nextFree + Process.pointerSize)],
              [.ptr img.address, .ptr (st.mem.nextFree + Process.pointerSize),
               .ptr st.mem.nextFree],
              (loadFromCallResult rt st img).1, st.mem.nextFree,
              (loadFromCallResult rt st img).2, ?_, by simp, ?_⟩
      · simp [runOp, newEvents_loadFrom, LoadOp.symName, List.append_assoc]
      · by_cases h : (loadFromCallResult rt st img).1 = 0 <;>
          · simp only [loadFromCallResult] at h
            simp_all [runOp, loadFrom_run, loadFromCallResult]
    | loadFromFull img n ro =>
      refine ⟨[Event.alloc Process.pointerSize st.mem.nextFree,
               Event.allocUtf8String n (st.mem.nextFree + Process.pointerSize)],
              [.ptr img.address, .ptr (st.mem.nextFree + Process.pointerSize),
               .ptr st.mem.nextFree, .flag ro],
              (loadFromFullCallResult rt st img ro).1, st.mem.nextFree,
              (loadFromFullCallResult rt st img ro).2, ?_, by simp, ?_⟩
      · simp [runOp, newEvents_loadFromFull, LoadOp.symName, List.append_assoc]
      · by_cases h : (loadFromFullCallResult rt st img ro).1 = 0 <;>
          · simp only [loadFromFullCallResult] at h
            simp_all [runOp, loadFromFull_run, loadFromFullCallResult]
    | loadWithPartialName n =>
      refine ⟨[Event.alloc Process.pointerSize st.mem.nextFree,
               Event.allocUtf8String n (st.mem.nextFree + Process.pointerSize)],
              [.ptr (st.mem.nextFree + Process.pointerSize), .ptr st.mem.nextFree],
              (loadWithPartialNameCallResult rt st).1, st.mem.nextFree,
              (loadWithPartialNameCallResult rt st).2, ?_, by simp, ?_⟩
      · simp [runOp, newEvents_loadWithPartialName, LoadOp.symName,
          List.append_assoc]
      · by_cases h : (loadWithPartialNameCallResult rt st).1 = 0 <;>
          · simp only [loadWithPartialNameCallResult] at h
            simp_all [runOp, loadWithPartialName_run,
              loadWithPartialNameCallResult]
  · refine ⟨[Event.allocUtf8String name st.mem.nextFree,
             Event.nativeCall "mono_assembly_name_new" [.ptr st.mem.nextFree]
               (some (rt.mono_assembly_name_new st.mem.nextFree))],
            [.ptr (rt.mono_assembly_name_new st.mem.nextFree)],
            loadedCallResult rt st, ?_, ?_, ?_⟩
    · simp [newEvents_loaded, List.append_assoc]
    · intro e he
      simp only [newEvents_loaded, List.mem_cons, List.not_mem_nil,
        or_false] at he
      rcases he with rfl | rfl | rfl <;> simp [Event.isAlloc, Event.isReadInt]
    · simp [loaded_run, loadedCallResult]

theorem claim_C8_amended_witness :
    ∃ pre args r,
      newEvents st0 (MonoAssembly.loaded rtFail "Foo" st0).2 =
        pre ++ [Event.nativeCall "mono_assembly_loaded" args (some r)] := by
  obtain ⟨pre, args, r, htr, -, -⟩ :=
    (claim_C8_amended_skeleton (LoadOp.load "x" "y") rtFail st0 "Foo").2
  exact ⟨pre, args, r, htr⟩

/-- Claim C9: `MonoAssembly.close` performs exactly one native call, the
`mono_assembly_close` symbol applied to the facade's own address, returning
nothing (`none`); it modifies no host-side state — the memory is exactly the
one before the call, only the trace grows by that single event — and the
facade value itself (hence its address) is untouched, being passed by
value. -/
theorem claim_C9_close_frame (self : MonoAssembly) (st : St) :
    MonoAssembly.close self st =
      ⟨st.mem, st.trace ++
        [Event.nativeCall "mono_assembly_close" [.ptr self.address] none]⟩ ∧
    (MonoAssembly.close self st).mem = st.mem ∧
    newEvents st (MonoAssembly.close self st) =
      [Event.nativeCall "mono_assembly_close" [.ptr self.address] none] := by
  refine ⟨rfl, rfl, ?_⟩
  simp [MonoAssembly.close, NativeRuntime.call_close, newEvents,
    List.drop_left]

/-- Claim C10: `MonoAssembly.loaded` always returns a `MonoAssembly` facade
(an `Except.ok` carrying a facade value, never a host-language null): when
the native call returns the null address the result is the facade wrapping
that null address — `fromAddress` applied to `0`, whose `address` reads `0`,
which is how a caller detects absence — and `loaded` allocates no status
slot and never reads a status code. -/
theorem claim_C10_loaded_always_facade (rt : NativeRuntime) (st : St)
    (name : String) :
    (MonoAssembly.loaded rt name st).1 =
      Except.ok (MonoAssembly.fromAddress (loadedCallResult rt st)) ∧
    (loadedCallResult rt st = 0 →
       (MonoAssembly.loaded rt name st).1 =
         Except.ok (MonoAssembly.fromAddress 0) ∧
       (MonoAssembly.fromAddress 0).address = 0) ∧
    (∀ e ∈ newEvents st (MonoAssembly.loaded rt name st).2,
       e.isAlloc = false ∧ e.isReadInt = false) := by
  refine ⟨by simp [loaded_run, loadedCallResult], ?_, ?_⟩
  · intro h
    simp only [loadedCallResult] at h
    exact ⟨by simp [loaded_run, h], rfl⟩
  · intro e he
    simp only [newEvents_loaded, List.mem_cons, List.not_mem_nil,
      or_false] at he
    rcases he with rfl | rfl | rfl <;> simp [Event.isAlloc, Event.isReadInt]

theorem claim_C10_witness :
    (MonoAssembly.loaded rtFail "Qux" st0).1 =
      Except.ok (MonoAssembly.fromAddress 0) ∧
    (MonoAssembly.fromAddress 0).address = 0 :=
  (claim_C10_loaded_always_facade rtFail st0 "Qux").2.1 (by decide)
